import Mathlib

/-!
Shallow embedding of the synchronization engine of
`upload_folder_multithread1.py`: the todo/done reconciliation
(`list_files_with_cache`), the remote folder resolver with its memoizing
cache (`ensure_folder_for_relative_path`), the task builder
(`build_tasks_from_cache`), the transient-error classifier (`should_retry`),
the per-file uploader with its name+size deduplication (`upload_file`) and
the retrying task queue (`process_queue`).

External effects are passed in explicitly: the filesystem walk becomes a
list of relative POSIX paths, the contents of the durable logs become lists
of lines, and the Google Drive service becomes deterministic oracles for the
listing query, the folder create-or-lookup call and the upload attempt.
-/

/-- Relative POSIX path (`Path.relative_to(...).as_posix()`), the identity
key of a file across the engine. -/
abbrev RelPath := String

/-- Whitespace as `str.strip()` removes it: space, tab, newline, carriage
return, vertical tab and form feed. -/
def isPySpace (c : Char) : Bool :=
  c == ' ' || c == '\t' || c == '\n' || c == '\r' ||
    c == Char.ofNat 11 || c == Char.ofNat 12

/-- Embedding of Python `line.strip()`: leading and trailing whitespace
removed. -/
def stripLine (s : String) : String :=
  ⟨((s.data.dropWhile isPySpace).reverse.dropWhile isPySpace).reverse⟩

/-- Split of a character list at a separator, as Python `str.split(sep)`
does for a single-character separator (empty pieces are kept). -/
def splitCharsAux (sep : Char) : List Char → List Char → List (List Char)
  | [], acc => [acc.reverse]
  | c :: cs, acc =>
    if c == sep then acc.reverse :: splitCharsAux sep cs []
    else splitCharsAux sep cs (c :: acc)

/-- Embedding of `rel_str.split("/")`. -/
def splitOnSlash (s : String) : List String :=
  (splitCharsAux '/' s.data []).map (fun l => ⟨l⟩)

/-- Embedding of `"/".join(parts)`. -/
def joinSlash : List String → String
  | [] => ""
  | [x] => x
  | x :: xs => x ++ "/" ++ joinSlash xs

/-- Last path component, as `Path.name` / `os.path.basename` on a POSIX
path. -/
def baseName (p : String) : String :=
  (splitOnSlash p).getLastD p

/-- Embedding of `Path(rel).parent.as_posix()` for a relative POSIX path:
all components but the last, or `"."` for a top-level name. -/
def relParent (rel : String) : String :=
  let parts := splitOnSlash rel
  if parts.length ≤ 1 then "." else joinSlash parts.dropLast

/-- Load of the done set in `list_files_with_cache` (lines 72-78): each line
of `files_done.tmp` is stripped and kept when non-blank; an absent log
(`none`) yields the empty set. -/
def load_done_set : Option (List String) → List RelPath
  | none => []
  | some lines => (lines.map stripLine).filter (fun r => r ≠ "")

/-- What `list_files_with_cache` produces: the new contents of the
overwritten `files_todo.tmp` and the two returned counts. -/
structure ScanResult where
  todo_log : List RelPath
  total_count : Nat
  todo_count : Nat
deriving Repr, DecidableEq

/-- Embedding of `list_files_with_cache` (lines 48-98).  `currentFiles`
abstracts the `os.walk` enumeration of regular files under the root (one
relative POSIX path each, in walk order); `doneLines` abstracts the raw
lines of `files_done.tmp`, `none` when that file does not exist.  The todo
log is overwritten with `current_files - done_set` and the on-disk and todo
counts are returned. -/
def list_files_with_cache (currentFiles : List RelPath)
    (doneLines : Option (List String)) : ScanResult :=
  let done_set := load_done_set doneLines
  let todo_files := currentFiles.filter (fun rel => ¬ rel ∈ done_set)
  { todo_log := todo_files
    total_count := currentFiles.length
    todo_count := todo_files.length }

/-- Embedding of `should_retry` (lines 213-218): an `HttpError` is classified
transient exactly when its HTTP status is 403, 500, 502, 503 or 504.  The
`isinstance` guard is captured by typing the argument as the error's status
code. -/
def should_retry (status : Nat) : Bool :=
  status == 403 || status == 500 || status == 502 || status == 503 ||
    status == 504

/-- Classifier stated from the specification's words, for comparison with
`should_retry`: transient exactly when the status is rate limiting (403 as
the Drive API uses it, or HTTP 429) or any server-side 5xx-class failure. -/
def spec_transient (status : Nat) : Bool :=
  status == 403 || status == 429 || (500 ≤ status && status < 600)

/-- Remote object as the dedup query returns it (`fields="files(id, name,
size)"`); `size` is absent for folders and sizeless native documents. -/
structure RemoteFile where
  id : String
  name : String
  size : Option Nat
deriving Repr, DecidableEq

/-- Size against which `upload_file` compares the local file:
`int(existing.get("size", 0))` — an absent size field is read as 0. -/
def sizeVal (f : RemoteFile) : Nat :=
  f.size.getD 0

/-- Embedding of the `UploadTask` dataclass (lines 22-27). -/
structure UploadTask where
  local_path : String
  rel_path : RelPath
  parent_drive_id : String
  retries : Nat := 0
deriving Repr, DecidableEq

/-- Outcome of one `files().create` upload attempt: the new object's id, or
the `HttpError` status the attempt raised. -/
inductive UploadOutcome where
  | ok (id : String)
  | err (status : Nat)
deriving Repr, DecidableEq

/-- The external world of one run, made deterministic: `listing name parent`
answers the dedup query (non-trashed objects named `name` under `parent`),
`localSize` is `Path.stat().st_size` keyed by the local path, and
`uploadResult rel n` is the outcome of the upload attempt made for `rel`
while its task's retry counter is `n`. -/
structure DriveEnv where
  listing : String → String → List RemoteFile
  localSize : String → Nat
  uploadResult : RelPath → Nat → UploadOutcome

/-- Embedding of `upload_file` (lines 221-260).  The listing for the file's
name under the task's parent is scanned in order; the first object whose
`int(existing.get("size", 0))` equals the local size short-circuits the
upload and its id is returned (`Bool` component `false` = no create call).
Otherwise the resumable upload runs: `.ok (id, true)` on success, or
`.error status` for the raised `HttpError`. -/
def upload_file (env : DriveEnv) (task : UploadTask) :
    Except Nat (String × Bool) :=
  let file_name := baseName task.local_path
  let existing_files := env.listing file_name task.parent_drive_id
  let local_size := env.localSize task.local_path
  match existing_files.find? (fun f => sizeVal f == local_size) with
  | some f => .ok (f.id, false)
  | none =>
    match env.uploadResult task.rel_path task.retries with
    | .ok id => .ok (id, true)
    | .err s => .error s

/-- Observable event of one iteration of the `while tasks:` loop of
`process_queue`: `done rel up` records the append of `rel` to
`files_done.tmp` after `upload_file` returned (with `up = true` exactly when
a create call was issued, `false` for the deduplication short-circuit);
`retried rel n delay` records a failed attempt classified transient and
re-enqueued with the retry counter at `n` after the computed backoff
`delay`; `failed rel n` records the task reported as failed with its counter
at `n`. -/
inductive Event where
  | done (rel : RelPath) (didUpload : Bool)
  | retried (rel : RelPath) (attempt : Nat) (delay : ℚ)
  | failed (rel : RelPath) (attempts : Nat)
deriving Repr, DecidableEq

/-- Weight of a queued task in the termination measure of `process_queue`:
positive, and strictly decreasing when the task is re-enqueued (which the
code only does while the incremented counter stays at or below
`max_retries`). -/
def taskWeight (max_retries : Nat) (t : UploadTask) : Nat :=
  max_retries + 1 - min t.retries max_retries

/-- Termination measure of the `while tasks:` loop: total weight of the
queue.  Each iteration strictly decreases it, so the loop ends. -/
def queueMeasure (max_retries : Nat) (q : List UploadTask) : Nat :=
  (q.map (taskWeight max_retries)).sum

/-- Embedding of the loop body of `process_queue` (lines 263-294), with
explicit fuel (`process_queue` supplies `queueMeasure`, which bounds the
number of iterations, so the fuel-out branch is never taken).  The head task
is popped; on a normal return from `upload_file` its relative path is
appended to the done log; on an `HttpError` the retry counter is
incremented, and the task is either re-enqueued at the back after the
exponential-backoff delay (counter within `max_retries` and status
transient) or reported failed. -/
def process_go (env : DriveEnv) (max_retries : Nat) (base_delay : ℚ) :
    Nat → List UploadTask → List Event
  | _, [] => []
  | 0, _ :: _ => []
  | fuel + 1, t :: rest =>
    match upload_file env t with
    | .ok (_, up) =>
      .done t.rel_path up :: process_go env max_retries base_delay fuel rest
    | .error s =>
      if t.retries + 1 ≤ max_retries ∧ should_retry s = true then
        .retried t.rel_path (t.retries + 1)
            (base_delay * 2 ^ (t.retries + 1 - 1)) ::
          process_go env max_retries base_delay fuel
            (rest ++ [{ t with retries := t.retries + 1 }])
      else
        .failed t.rel_path (t.retries + 1) ::
          process_go env max_retries base_delay fuel rest

/-- Embedding of `process_queue` (lines 263-294): the loop run to
completion, producing the trace of done-log appends, retries and failure
reports in the order the single consumer performs them. -/
def process_queue (env : DriveEnv) (max_retries : Nat) (base_delay : ℚ)
    (tasks : List UploadTask) : List Event :=
  process_go env max_retries base_delay (queueMeasure max_retries tasks) tasks

/-- Relative paths appended to `files_done.tmp` during a run, in order. -/
def doneRels (evts : List Event) : List RelPath :=
  evts.filterMap fun e =>
    match e with
    | .done r _ => some r
    | _ => none

/-- Relative paths reported as failed during a run, in order. -/
def failedRels (evts : List Event) : List RelPath :=
  evts.filterMap fun e =>
    match e with
    | .failed r _ => some r
    | _ => none

/-- Number of create (upload) calls a run issued: done-log appends that were
not deduplication short-circuits. -/
def uploadsIssued (evts : List Event) : Nat :=
  (evts.filter fun e =>
    match e with
    | .done _ true => true
    | _ => false).length

/-- The in-run folder cache `folder_cache`: relative directory path (POSIX)
to Drive folder id, in insertion order with the newest entry first (the
engine only ever inserts keys it just failed to find, so the Python dict and
this association list answer lookups identically). -/
abbrev FolderCache := List (String × String)

/-- Embedding of `rel_str in folder_cache` / `folder_cache[rel_str]`. -/
def cacheFind (cache : FolderCache) (key : String) : Option String :=
  (cache.find? fun p => p.1 == key).map Prod.snd

/-- Embedding of `folder_cache[key] = fid`. -/
def cacheInsert (cache : FolderCache) (key fid : String) : FolderCache :=
  (key, fid) :: cache

/-- Embedding of the segment walk of `ensure_folder_for_relative_path`
(lines 154-168).  `get_or_create` is the oracle for one
`get_or_create_folder` round trip (lookup of a non-trashed folder by name
under a parent, creating it when absent); the `Nat` counts those round
trips.  Empty segments are skipped; for each cumulative path the cache is
consulted first, and a fresh resolution is written through to the cache. -/
def ensure_go (get_or_create : String → String → String) :
    List String → String → List String → FolderCache → Nat →
      String × FolderCache × Nat
  | [], parent_id, _, cache, calls => (parent_id, cache, calls)
  | part :: parts, parent_id, current_rel, cache, calls =>
    if part = "" then
      ensure_go get_or_create parts parent_id current_rel cache calls
    else
      let rel2 := current_rel ++ [part]
      let key := joinSlash rel2
      match cacheFind cache key with
      | some fid => ensure_go get_or_create parts fid rel2 cache calls
      | none =>
        let fid := get_or_create part parent_id
        ensure_go get_or_create parts fid rel2
          (cacheInsert cache key fid) (calls + 1)

/-- What one call of the resolver returns: the Drive folder id, the cache
after the call, and how many `get_or_create_folder` round trips it issued. -/
structure ResolveResult where
  folder_id : String
  cache : FolderCache
  calls : Nat
deriving Repr, DecidableEq

/-- Embedding of `ensure_folder_for_relative_path` (lines 132-168): the
empty and current-directory paths resolve to the root with no remote call;
a path found in the cache resolves with no remote call; otherwise the
segment walk of `ensure_go` runs. -/
def ensure_folder_for_relative_path (get_or_create : String → String → String)
    (root_drive_id : String) (rel_str : String) (cache : FolderCache) :
    ResolveResult :=
  if rel_str = "" ∨ rel_str = "." then
    { folder_id := root_drive_id, cache := cache, calls := 0 }
  else
    match cacheFind cache rel_str with
    | some fid => { folder_id := fid, cache := cache, calls := 0 }
    | none =>
      let r := ensure_go get_or_create (splitOnSlash rel_str) root_drive_id
        [] cache 0
      { folder_id := r.1, cache := r.2.1, calls := r.2.2 }

/-- Cumulative path keys the segment walk consults, continuing from the
already-walked components `acc`: for `acc = []` and parts `[a, b]` these are
`a` and `a/b`. -/
def cumKeysAux (acc : List String) : List String → List String
  | [] => []
  | p :: ps => joinSlash (acc ++ [p]) :: cumKeysAux (acc ++ [p]) ps

/-- Cumulative path keys of a relative directory's segment list. -/
def cumKeys (parts : List String) : List String :=
  cumKeysAux [] parts

/-- What `build_tasks_from_cache` produces: the FIFO task queue, the local
paths skipped with a warning because the file vanished, the folder cache
after the build, and the total `get_or_create_folder` round trips issued. -/
structure BuildResult where
  tasks : List UploadTask
  skipped : List String
  cache : FolderCache
  calls : Nat
deriving Repr, DecidableEq

/-- Embedding of the line loop of `build_tasks_from_cache` (lines 186-208).
`is_file` abstracts `local_path.is_file()`, keyed by the local path.  Each
line is stripped; blank lines are skipped silently; lines whose local file
is gone are recorded as skipped (the printed warning) and processing
continues; for the rest the parent directory is resolved through the shared
cache and a task is appended with a fresh retry counter. -/
def build_go (get_or_create : String → String → String)
    (is_file : String → Bool) (local_root root_drive_id : String) :
    List String → FolderCache → BuildResult
  | [], cache => { tasks := [], skipped := [], cache := cache, calls := 0 }
  | line :: restLines, cache =>
    let rel := stripLine line
    if rel = "" then build_go get_or_create is_file local_root root_drive_id
      restLines cache
    else
      let local_path := local_root ++ "/" ++ rel
      if is_file local_path = false then
        let r := build_go get_or_create is_file local_root root_drive_id
          restLines cache
        { tasks := r.tasks, skipped := local_path :: r.skipped,
          cache := r.cache, calls := r.calls }
      else
        let rr := ensure_folder_for_relative_path get_or_create root_drive_id
          (relParent rel) cache
        let r := build_go get_or_create is_file local_root root_drive_id
          restLines rr.cache
        { tasks := { local_path := local_path, rel_path := rel,
                     parent_drive_id := rr.folder_id, retries := 0 } :: r.tasks,
          skipped := r.skipped, cache := r.cache,
          calls := rr.calls + r.calls }

/-- Embedding of `build_tasks_from_cache` (lines 171-210): the folder cache
starts with the empty relative path mapped to the Drive root, and the todo
log's lines are processed in order. -/
def build_tasks_from_cache (get_or_create : String → String → String)
    (is_file : String → Bool) (local_root root_drive_id : String)
    (todoLines : List String) : BuildResult :=
  build_go get_or_create is_file local_root root_drive_id todoLines
    (cacheInsert [] "" root_drive_id)

/-- Run environment with a transient first failure (HTTP 503) and a
successful second attempt, used to exercise the backoff path concretely. -/
def envC5 : DriveEnv :=
  { listing := fun _ _ => []
    localSize := fun _ => 10
    uploadResult := fun _ n => if n = 0 then .err 503 else .ok "new" }

/-- Task for the backoff run. -/
def taskC5 : UploadTask :=
  { local_path := "r/a.txt", rel_path := "a.txt", parent_drive_id := "root" }

/-- Run environment whose upload attempts raise HTTP 404 (not found), a
status `should_retry` classifies as permanent. -/
def envC6 : DriveEnv :=
  { listing := fun _ _ => []
    localSize := fun _ => 10
    uploadResult := fun _ _ => .err 404 }

/-- Task for the permanent-error run. -/
def taskC6 : UploadTask :=
  { local_path := "r/a.txt", rel_path := "a.txt", parent_drive_id := "root" }

/-- Run environment in which the remote already holds `a.txt` with the same
byte size (10) as the local file, so the dedup short-circuit fires. -/
def envC3 : DriveEnv :=
  { listing := fun _ _ => [{ id := "id1", name := "a.txt", size := some 10 }]
    localSize := fun _ => 10
    uploadResult := fun _ _ => .ok "new" }

/-- Task for the deduplication run. -/
def taskC3 : UploadTask :=
  { local_path := "r/a.txt", rel_path := "a.txt", parent_drive_id := "root" }

/-- Run environment for the second-run scenario (its contents are irrelevant
because the queue it processes is empty). -/
def envC4 : DriveEnv :=
  { listing := fun _ _ => []
    localSize := fun _ => 10
    uploadResult := fun _ _ => .ok "new" }

/-- Run environment whose listing holds a same-name object with a present,
nonzero size field (5 bytes) while the local file is empty (0 bytes). -/
def envC10x : DriveEnv :=
  { listing := fun _ _ => [{ id := "f1", name := "a.txt", size := some 5 }]
    localSize := fun _ => 0
    uploadResult := fun _ _ => .ok "new" }

/-- Zero-byte-local-file task for the sized-remote-object run. -/
def taskC10x : UploadTask :=
  { local_path := "r/a.txt", rel_path := "a.txt", parent_drive_id := "root" }

/-- Run environment whose listing holds a same-name object with no size
field (for example a folder), while the local file is empty. -/
def envC10 : DriveEnv :=
  { listing := fun _ _ => [{ id := "folder1", name := "sub", size := none }]
    localSize := fun _ => 0
    uploadResult := fun _ _ => .ok "new" }

/-- Zero-byte-local-file task for the sizeless-remote-object run. -/
def taskC10 : UploadTask :=
  { local_path := "r/sub", rel_path := "sub", parent_drive_id := "root" }

/-- Create-or-lookup oracle that derives a folder's id from its parent's id,
used to run the resolver concretely. -/
def gocC7 : String → String → String := fun n p => p ++ "/" ++ n

/-- Initial folder cache of a build: the empty relative path mapped to the
Drive root. -/
def cacheC7 : FolderCache := cacheInsert [] "" "root"

/-- First resolution of `video/animation` against the initial cache. -/
def r1C7 : ResolveResult :=
  ensure_folder_for_relative_path gocC7 "root" "video/animation" cacheC7

/-- Second resolution of `video/animation`, against the cache the first
resolution produced. -/
def r2C7 : ResolveResult :=
  ensure_folder_for_relative_path gocC7 "root" "video/animation" r1C7.cache

/-- Positivity of a queued task's weight: popping a task always shrinks
the termination measure. -/
theorem taskWeight_pos (maxR : Nat) (t : UploadTask) : 0 < taskWeight maxR t := by
  unfold taskWeight; omega

/-- Measure of the empty queue. -/
theorem queueMeasure_nil (maxR : Nat) : queueMeasure maxR [] = 0 := rfl

/-- Measure of a pushed queue. -/
theorem queueMeasure_cons (maxR : Nat) (t : UploadTask) (q : List UploadTask) :
    queueMeasure maxR (t :: q) = taskWeight maxR t + queueMeasure maxR q := by
  simp [queueMeasure]

/-- Measure of concatenated queues. -/
theorem queueMeasure_append (maxR : Nat) (q r : List UploadTask) :
    queueMeasure maxR (q ++ r) = queueMeasure maxR q + queueMeasure maxR r := by
  simp [queueMeasure]

/-- Re-enqueueing a task within the retry ceiling lowers its weight by
exactly one. -/
theorem taskWeight_requeue (maxR : Nat) (t : UploadTask)
    (h : t.retries + 1 ≤ maxR) :
    taskWeight maxR { t with retries := t.retries + 1 } + 1 =
      taskWeight maxR t := by
  simp only [taskWeight]
  omega

/-- Fuel irrelevance for the loop body: any fuel at least the queue
measure yields the run to completion. -/
theorem process_go_fuel_eq (env : DriveEnv) (maxR : Nat) (d : ℚ) :
    ∀ f1 f2 q, queueMeasure maxR q ≤ f1 → queueMeasure maxR q ≤ f2 →
      process_go env maxR d f1 q = process_go env maxR d f2 q := by
  intro f1
  induction f1 with
  | zero =>
    intro f2 q h1 _
    cases q with
    | nil => cases f2 <;> rfl
    | cons t rest =>
      exfalso
      have hw := taskWeight_pos maxR t
      rw [queueMeasure_cons] at h1
      omega
  | succ f ih =>
    intro f2 q h1 h2
    cases q with
    | nil => cases f2 <;> rfl
    | cons t rest =>
      have hw := taskWeight_pos maxR t
      rw [queueMeasure_cons] at h1 h2
      obtain ⟨f2', rfl⟩ : ∃ k, f2 = k + 1 := by
        cases f2 with
        | zero => omega
        | succ k => exact ⟨k, rfl⟩
      simp only [process_go]
      cases hu : upload_file env t with
      | ok pair =>
        rw [ih f2' rest (by omega) (by omega)]
      | error s =>
        by_cases hc : t.retries + 1 ≤ maxR ∧ should_retry s = true
        · simp only [if_pos hc]
          have hm : queueMeasure maxR
              (rest ++ [{ t with retries := t.retries + 1 }]) =
              queueMeasure maxR rest +
                taskWeight maxR { t with retries := t.retries + 1 } := by
            rw [queueMeasure_append, queueMeasure_cons, queueMeasure_nil]
            omega
          have hr := taskWeight_requeue maxR t hc.1
          rw [ih f2' _ (by omega) (by omega)]
        · simp only [if_neg hc]
          rw [ih f2' rest (by omega) (by omega)]

/-- Empty queue: the loop body never runs. -/
theorem process_queue_nil (env : DriveEnv) (maxR : Nat) (d : ℚ) :
    process_queue env maxR d [] = [] := rfl

/-- One loop iteration in which `upload_file` returns normally: the head
task's relative path is appended to the done log and the loop continues on
the remaining queue. -/
theorem process_queue_cons_ok (env : DriveEnv) (maxR : Nat) (d : ℚ)
    (t : UploadTask) (rest : List UploadTask) (i : String) (b : Bool)
    (h : upload_file env t = .ok (i, b)) :
    process_queue env maxR d (t :: rest) =
      .done t.rel_path b :: process_queue env maxR d rest := by
  have hw := taskWeight_pos maxR t
  unfold process_queue
  rw [queueMeasure_cons]
  obtain ⟨k, hk⟩ : ∃ k, taskWeight maxR t + queueMeasure maxR rest = k + 1 :=
    ⟨taskWeight maxR t + queueMeasure maxR rest - 1, by omega⟩
  rw [hk]
  simp only [process_go, h]
  rw [process_go_fuel_eq env maxR d k (queueMeasure maxR rest) rest
    (by omega) (le_refl _)]

/-- One loop iteration in which `upload_file` raises a transient
`HttpError` within the retry ceiling: the backoff delay is computed from
the incremented counter and the task is re-enqueued at the back. -/
theorem process_queue_cons_retry (env : DriveEnv) (maxR : Nat) (d : ℚ)
    (t : UploadTask) (rest : List UploadTask) (s : Nat)
    (h : upload_file env t = .error s)
    (hle : t.retries + 1 ≤ maxR) (hsr : should_retry s = true) :
    process_queue env maxR d (t :: rest) =
      .retried t.rel_path (t.retries + 1) (d * 2 ^ (t.retries + 1 - 1)) ::
        process_queue env maxR d (rest ++ [{ t with retries := t.retries + 1 }]) := by
  have hw := taskWeight_pos maxR t
  unfold process_queue
  rw [queueMeasure_cons]
  obtain ⟨k, hk⟩ : ∃ k, taskWeight maxR t + queueMeasure maxR rest = k + 1 :=
    ⟨taskWeight maxR t + queueMeasure maxR rest - 1, by omega⟩
  rw [hk]
  simp only [process_go, h, if_pos (And.intro hle hsr)]
  have hm : queueMeasure maxR (rest ++ [{ t with retries := t.retries + 1 }]) =
      queueMeasure maxR rest + taskWeight maxR { t with retries := t.retries + 1 } := by
    rw [queueMeasure_append, queueMeasure_cons, queueMeasure_nil]
    omega
  have hr := taskWeight_requeue maxR t hle
  congr 1
  exact process_go_fuel_eq env maxR d k _ _ (by omega) (le_refl _)

/-- One loop iteration in which the raised `HttpError` is permanent or the
ceiling is exhausted: the task is reported failed and the loop continues. -/
theorem process_queue_cons_fail (env : DriveEnv) (maxR : Nat) (d : ℚ)
    (t : UploadTask) (rest : List UploadTask) (s : Nat)
    (h : upload_file env t = .error s)
    (hcond : ¬ (t.retries + 1 ≤ maxR ∧ should_retry s = true)) :
    process_queue env maxR d (t :: rest) =
      .failed t.rel_path (t.retries + 1) :: process_queue env maxR d rest := by
  have hw := taskWeight_pos maxR t
  unfold process_queue
  rw [queueMeasure_cons]
  obtain ⟨k, hk⟩ : ∃ k, taskWeight maxR t + queueMeasure maxR rest = k + 1 :=
    ⟨taskWeight maxR t + queueMeasure maxR rest - 1, by omega⟩
  rw [hk]
  simp only [process_go, h, if_neg hcond]
  rw [process_go_fuel_eq env maxR d k (queueMeasure maxR rest) rest
    (by omega) (le_refl _)]

/-- Done-log appends of the empty trace. -/
theorem doneRels_nil : doneRels [] = [] := rfl

/-- Done-log appends of a trace starting with an append. -/
theorem doneRels_done (r : RelPath) (b : Bool) (evts : List Event) :
    doneRels (.done r b :: evts) = r :: doneRels evts := rfl

/-- Done-log appends are unchanged by a retry event. -/
theorem doneRels_retried (r : RelPath) (n : Nat) (dl : ℚ) (evts : List Event) :
    doneRels (.retried r n dl :: evts) = doneRels evts := rfl

/-- Done-log appends are unchanged by a failure report. -/
theorem doneRels_failed (r : RelPath) (n : Nat) (evts : List Event) :
    doneRels (.failed r n :: evts) = doneRels evts := rfl

/-- Failure reports of the empty trace. -/
theorem failedRels_nil : failedRels [] = [] := rfl

/-- Failure reports are unchanged by a done-log append. -/
theorem failedRels_done (r : RelPath) (b : Bool) (evts : List Event) :
    failedRels (.done r b :: evts) = failedRels evts := rfl

/-- Failure reports are unchanged by a retry event. -/
theorem failedRels_retried (r : RelPath) (n : Nat) (dl : ℚ) (evts : List Event) :
    failedRels (.retried r n dl :: evts) = failedRels evts := rfl

/-- Failure reports of a trace starting with one. -/
theorem failedRels_failed (r : RelPath) (n : Nat) (evts : List Event) :
    failedRels (.failed r n :: evts) = r :: failedRels evts := rfl

/-- Partition invariant of the loop body: with sufficient fuel, the
done-log appends and the failure reports together enumerate the queued
tasks' relative paths exactly once each. -/
theorem process_go_partition (env : DriveEnv) (maxR : Nat) (d : ℚ) :
    ∀ fuel q, queueMeasure maxR q ≤ fuel →
      (doneRels (process_go env maxR d fuel q) ++
        failedRels (process_go env maxR d fuel q)).Perm
        (q.map UploadTask.rel_path) := by
  intro fuel
  induction fuel with
  | zero =>
    intro q h
    cases q with
    | nil => simp [process_go, doneRels, failedRels]
    | cons t rest =>
      exfalso
      have := taskWeight_pos maxR t
      rw [queueMeasure_cons] at h
      omega
  | succ f ih =>
    intro q h
    cases q with
    | nil => simp [process_go, doneRels, failedRels]
    | cons t rest =>
      have hw := taskWeight_pos maxR t
      rw [queueMeasure_cons] at h
      cases hu : upload_file env t with
      | ok pair =>
        obtain ⟨i, b⟩ := pair
        simp only [process_go, hu, doneRels_done, failedRels_done,
          List.cons_append, List.map_cons]
        exact (ih rest (by omega)).cons t.rel_path
      | error s =>
        by_cases hc : t.retries + 1 ≤ maxR ∧ should_retry s = true
        · simp only [process_go, hu, if_pos hc, doneRels_retried,
            failedRels_retried, List.map_cons]
          have hm : queueMeasure maxR
              (rest ++ [{ t with retries := t.retries + 1 }]) =
              queueMeasure maxR rest +
                taskWeight maxR { t with retries := t.retries + 1 } := by
            rw [queueMeasure_append, queueMeasure_cons, queueMeasure_nil]
            omega
          have hr := taskWeight_requeue maxR t hc.1
          have hperm := ih (rest ++ [{ t with retries := t.retries + 1 }])
            (by omega)
          rw [List.map_append] at hperm
          exact hperm.trans
            ((List.perm_append_singleton _ _).trans
              ((List.Perm.refl _).cons t.rel_path))
        · simp only [process_go, hu, if_neg hc, doneRels_failed,
            failedRels_failed, List.map_cons]
          exact List.perm_middle.trans ((ih rest (by omega)).cons t.rel_path)

/-- Backoff invariant of the loop body: every retry event carries the
delay computed from its counter, and its counter is within the ceiling. -/
theorem process_go_retried_spec (env : DriveEnv) (maxR : Nat) (d : ℚ) :
    ∀ fuel q, queueMeasure maxR q ≤ fuel →
      ∀ r n delay, Event.retried r n delay ∈ process_go env maxR d fuel q →
        delay = d * 2 ^ (n - 1) ∧ 1 ≤ n ∧ n ≤ maxR := by
  intro fuel
  induction fuel with
  | zero =>
    intro q h r n delay hmem
    cases q with
    | nil => simp [process_go] at hmem
    | cons t rest =>
      exfalso
      have := taskWeight_pos maxR t
      rw [queueMeasure_cons] at h
      omega
  | succ f ih =>
    intro q h r n delay hmem
    cases q with
    | nil => simp [process_go] at hmem
    | cons t rest =>
      have hw := taskWeight_pos maxR t
      rw [queueMeasure_cons] at h
      cases hu : upload_file env t with
      | ok pair =>
        obtain ⟨i, b⟩ := pair
        rw [process_go, hu] at hmem
        rcases List.mem_cons.mp hmem with heq | htail
        · exact absurd heq (by simp)
        · exact ih rest (by omega) r n delay htail
      | error s =>
        by_cases hc : t.retries + 1 ≤ maxR ∧ should_retry s = true
        · simp only [process_go, hu, if_pos hc] at hmem
          rcases List.mem_cons.mp hmem with heq | htail
          · injection heq with h1 h2 h3
            have hcl := hc.1
            refine ⟨?_, ?_, ?_⟩
            · rw [h2]
              exact h3
            · omega
            · omega
          · have hm : queueMeasure maxR
                (rest ++ [{ t with retries := t.retries + 1 }]) =
                queueMeasure maxR rest +
                  taskWeight maxR { t with retries := t.retries + 1 } := by
              rw [queueMeasure_append, queueMeasure_cons, queueMeasure_nil]
              omega
            have hr := taskWeight_requeue maxR t hc.1
            exact ih _ (by omega) r n delay htail
        · simp only [process_go, hu, if_neg hc] at hmem
          rcases List.mem_cons.mp hmem with heq | htail
          · exact absurd heq (by simp)
          · exact ih rest (by omega) r n delay htail

/-- Characterization of the build loop, for any starting cache: the
skipped warnings are exactly the non-blank stripped lines whose local file
is gone, and the queued tasks' relative paths are exactly the non-blank
stripped lines whose local file is present, both in order. -/
theorem build_go_skipped_tasks (goc : String → String → String)
    (is_file : String → Bool) (local_root root_id : String) :
    ∀ (lines : List String) (cache : FolderCache),
      (build_go goc is_file local_root root_id lines cache).skipped =
        ((lines.map stripLine).filter
          (fun r => !(r == "") && !(is_file (local_root ++ "/" ++ r)))).map
          (fun r => local_root ++ "/" ++ r) ∧
      (build_go goc is_file local_root root_id lines cache).tasks.map
          UploadTask.rel_path =
        (lines.map stripLine).filter
          (fun r => !(r == "") && is_file (local_root ++ "/" ++ r)) := by
  intro lines
  induction lines with
  | nil => intro cache; exact ⟨rfl, rfl⟩
  | cons line rest ih =>
    intro cache
    simp only [build_go, List.map_cons, List.filter_cons]
    by_cases h1 : stripLine line = ""
    · rw [if_pos h1]
      simp only [h1]
      simpa using ih cache
    · rw [if_neg h1]
      have h1b : (stripLine line == "") = false := by
        simp [h1]
      by_cases h2 : is_file (local_root ++ "/" ++ stripLine line) = false
      · rw [if_pos h2]
        obtain ⟨ih1, ih2⟩ := ih cache
        constructor
        · simp [h1b, h2, ih1]
        · simp [h1b, h2, ih2]
      · have h2t : is_file (local_root ++ "/" ++ stripLine line) = true := by
          revert h2
          cases is_file (local_root ++ "/" ++ stripLine line) <;> simp
        rw [if_neg (by simp [h2t] : ¬ is_file (local_root ++ "/" ++ stripLine line) = false)]
        obtain ⟨ih1, ih2⟩ := ih (ensure_folder_for_relative_path goc root_id
          (relParent (stripLine line)) cache).cache
        constructor
        · simp [h1b, h2t, ih1]
        · simp [h1b, h2t, ih2]

/-- Lookup of a freshly inserted cache key. -/
theorem cacheFind_insert_self (cache : FolderCache) (k v : String) :
    cacheFind (cacheInsert cache k v) k = some v := by
  simp [cacheFind, cacheInsert, List.find?_cons_of_pos]

/-- Lookup of any other key is unchanged by an insertion. -/
theorem cacheFind_insert_of_ne (cache : FolderCache) (k k2 v : String)
    (h : k2 ≠ k) :
    cacheFind (cacheInsert cache k v) k2 = cacheFind cache k2 := by
  have : ((k, v).1 == k2) = false := by
    simp [BEq.comm]
    exact fun hk => h hk.symm
  simp [cacheFind, cacheInsert, List.find?_cons_of_neg, this]

/-- Entries present in the cache survive the segment walk with their
values intact (the walk only inserts keys it failed to find). -/
theorem ensure_go_mono (goc : String → String → String) :
    ∀ (parts : List String) (parent : String) (acc : List String)
      (cache : FolderCache) (calls : Nat) (k v : String),
      cacheFind cache k = some v →
      cacheFind (ensure_go goc parts parent acc cache calls).2.1 k = some v := by
  intro parts
  induction parts with
  | nil => intro parent acc cache calls k v h; exact h
  | cons p ps ih =>
    intro parent acc cache calls k v h
    by_cases hp : p = ""
    · rw [ensure_go, if_pos hp]
      exact ih parent acc cache calls k v h
    · simp only [ensure_go, if_neg hp]
      cases hc : cacheFind cache (joinSlash (acc ++ [p])) with
      | some fid =>
        exact ih fid (acc ++ [p]) cache calls k v h
      | none =>
        have hne : k ≠ joinSlash (acc ++ [p]) := by
          intro heq
          rw [heq] at h
          rw [h] at hc
          exact Option.noConfusion hc
        exact ih _ (acc ++ [p]) _ (calls + 1) k v
          ((cacheFind_insert_of_ne cache (joinSlash (acc ++ [p])) k
            (goc p parent) hne).trans h)

/-- Round-trip bound of the segment walk: at most one `get_or_create`
call per cumulative path key absent from the starting cache. -/
theorem ensure_go_calls_le (goc : String → String → String) :
    ∀ (parts : List String) (parent : String) (acc : List String)
      (cache : FolderCache) (calls : Nat), "" ∉ parts →
      (ensure_go goc parts parent acc cache calls).2.2 ≤
        calls + (cumKeysAux acc parts).countP
          (fun k => (cacheFind cache k).isNone) := by
  intro parts
  induction parts with
  | nil =>
    intro parent acc cache calls _
    simp [ensure_go, cumKeysAux]
  | cons p ps ih =>
    intro parent acc cache calls hnp
    have hp : ¬ p = "" := by
      intro he
      exact hnp (by rw [he] at *; exact List.mem_cons_self _ _)
    have hps : "" ∉ ps := fun hm => hnp (List.mem_cons_of_mem p hm)
    simp only [ensure_go, if_neg hp, cumKeysAux]
    cases hc : cacheFind cache (joinSlash (acc ++ [p])) with
    | some fid =>
      show (ensure_go goc ps fid (acc ++ [p]) cache calls).2.2 ≤ _
      have hrec := ih fid (acc ++ [p]) cache calls hps
      have hcount : ((joinSlash (acc ++ [p]) :: cumKeysAux (acc ++ [p]) ps).countP
          (fun k => (cacheFind cache k).isNone)) =
          (cumKeysAux (acc ++ [p]) ps).countP
            (fun k => (cacheFind cache k).isNone) := by
        simp [List.countP_cons, hc]
      omega
    | none =>
      have hmono : ∀ k2 ∈ cumKeysAux (acc ++ [p]) ps,
          (cacheFind (cacheInsert cache (joinSlash (acc ++ [p]))
            (goc p parent)) k2).isNone = true →
          (cacheFind cache k2).isNone = true := by
        intro k2 _ h2
        by_cases hk : k2 = joinSlash (acc ++ [p])
        · rw [hk, cacheFind_insert_self] at h2
          exact Bool.noConfusion h2
        · rw [cacheFind_insert_of_ne cache _ k2 _ hk] at h2
          exact h2
      have hcnt := List.countP_mono_left hmono
      have hrec := ih (goc p parent) (acc ++ [p])
        (cacheInsert cache (joinSlash (acc ++ [p])) (goc p parent))
        (calls + 1) hps
      have hcount : ((joinSlash (acc ++ [p]) :: cumKeysAux (acc ++ [p]) ps).countP
          (fun k => (cacheFind cache k).isNone)) =
          (cumKeysAux (acc ++ [p]) ps).countP
            (fun k => (cacheFind cache k).isNone) + 1 := by
        simp [List.countP_cons, hc]
      show (ensure_go goc ps (goc p parent) (acc ++ [p])
        (cacheInsert cache (joinSlash (acc ++ [p])) (goc p parent))
        (calls + 1)).2.2 ≤ _
      omega

/-- Write-through of the segment walk: after it, every cumulative path
key of the walked segments is in the cache. -/
theorem ensure_go_keys_cached (goc : String → String → String) :
    ∀ (parts : List String) (parent : String) (acc : List String)
      (cache : FolderCache) (calls : Nat), "" ∉ parts →
      ∀ k ∈ cumKeysAux acc parts,
        (cacheFind (ensure_go goc parts parent acc cache calls).2.1 k).isSome
          = true := by
  intro parts
  induction parts with
  | nil =>
    intro parent acc cache calls _ k hk
    simp [cumKeysAux] at hk
  | cons p ps ih =>
    intro parent acc cache calls hnp k hk
    have hp : ¬ p = "" := by
      intro he
      exact hnp (by rw [he] at *; exact List.mem_cons_self _ _)
    have hps : "" ∉ ps := fun hm => hnp (List.mem_cons_of_mem p hm)
    simp only [cumKeysAux] at hk
    simp only [ensure_go, if_neg hp]
    cases hc : cacheFind cache (joinSlash (acc ++ [p])) with
    | some fid =>
      rcases List.mem_cons.mp hk with heq | htail
      · rw [heq]
        rw [ensure_go_mono goc ps fid (acc ++ [p]) cache calls _ fid hc]
        rfl
      · exact ih fid (acc ++ [p]) cache calls hps k htail
    | none =>
      rcases List.mem_cons.mp hk with heq | htail
      · rw [heq]
        rw [ensure_go_mono goc ps (goc p parent) (acc ++ [p])
          (cacheInsert cache (joinSlash (acc ++ [p])) (goc p parent))
          (calls + 1) _ (goc p parent) (cacheFind_insert_self cache _ _)]
        rfl
      · exact ih (goc p parent) (acc ++ [p])
          (cacheInsert cache (joinSlash (acc ++ [p])) (goc p parent))
          (calls + 1) hps k htail

/-- The full walked path ends mapped, in the final cache, to the folder id
the walk returns. -/
theorem ensure_go_last (goc : String → String → String) :
    ∀ (parts : List String) (parent : String) (acc : List String)
      (cache : FolderCache) (calls : Nat), "" ∉ parts → parts ≠ [] →
      cacheFind (ensure_go goc parts parent acc cache calls).2.1
          (joinSlash (acc ++ parts)) =
        some (ensure_go goc parts parent acc cache calls).1 := by
  intro parts
  induction parts with
  | nil => intro _ _ _ _ _ hne; exact absurd rfl hne
  | cons p ps ih =>
    intro parent acc cache calls hnp _
    have hp : ¬ p = "" := by
      intro he
      exact hnp (by rw [he] at *; exact List.mem_cons_self _ _)
    have hps : "" ∉ ps := fun hm => hnp (List.mem_cons_of_mem p hm)
    have hacc : (acc ++ [p]) ++ ps = acc ++ p :: ps := by simp
    simp only [ensure_go, if_neg hp]
    by_cases hps0 : ps = []
    · subst hps0
      cases hc : cacheFind cache (joinSlash (acc ++ [p])) with
      | some fid => exact hc
      | none => exact cacheFind_insert_self cache _ _
    · cases hc : cacheFind cache (joinSlash (acc ++ [p])) with
      | some fid =>
        have := ih fid (acc ++ [p]) cache calls hps hps0
        rw [hacc] at this
        exact this
      | none =>
        have := ih (goc p parent) (acc ++ [p])
          (cacheInsert cache (joinSlash (acc ++ [p])) (goc p parent))
          (calls + 1) hps hps0
        rw [hacc] at this
        exact this

/-- C1: for every sync root, `list_files_with_cache` computes the todo
set as exactly the on-disk relative POSIX paths minus the non-blank lines
of the done log (an absent done log is the empty set, not an error),
overwrites the todo log with exactly those paths, and returns the total
on-disk file count and the todo count. -/
theorem reconciliation_computes_todo (currentFiles : List RelPath)
    (doneLines : Option (List String)) :
    (∀ p, p ∈ (list_files_with_cache currentFiles doneLines).todo_log ↔
        (p ∈ currentFiles ∧ p ∉ load_done_set doneLines)) ∧
    (list_files_with_cache currentFiles doneLines).total_count =
      currentFiles.length ∧
    (list_files_with_cache currentFiles doneLines).todo_count =
      (list_files_with_cache currentFiles doneLines).todo_log.length ∧
    load_done_set none = [] := by
  refine ⟨?_, rfl, rfl, rfl⟩
  intro p
  simp [list_files_with_cache, List.mem_filter]

/-- C2: for every finite task queue, `process_queue` terminates — it is a
total function because `queueMeasure` strictly decreases at every
iteration (`process_go_fuel_eq` shows any sufficient fuel gives the same
completed run) — and when it returns, the relative paths appended to the
done log and those reported failed together form a permutation of the
queued tasks' relative paths: every task ends in exactly one of Done or
Failed, none is dropped or reprocessed forever. -/
theorem process_queue_completeness (env : DriveEnv) (maxR : Nat) (d : ℚ)
    (tasks : List UploadTask) :
    (doneRels (process_queue env maxR d tasks) ++
      failedRels (process_queue env maxR d tasks)).Perm
      (tasks.map UploadTask.rel_path) :=
  process_go_partition env maxR d (queueMeasure maxR tasks) tasks (le_refl _)

/-- C3: if the remote listing for the file's name under the task's
resolved parent contains an object whose byte size equals the local size,
then `upload_file` issues no create call and returns an existing matching
object's id, and `process_queue` still appends the task's relative path to
the done log. -/
theorem dedup_skips_upload (env : DriveEnv) (maxR : Nat) (d : ℚ)
    (t : UploadTask) (rest : List UploadTask)
    (h : ∃ f ∈ env.listing (baseName t.local_path) t.parent_drive_id,
      f.size = some (env.localSize t.local_path)) :
    ∃ f ∈ env.listing (baseName t.local_path) t.parent_drive_id,
      sizeVal f = env.localSize t.local_path ∧
      upload_file env t = .ok (f.id, false) ∧
      process_queue env maxR d (t :: rest) =
        .done t.rel_path false :: process_queue env maxR d rest := by
  obtain ⟨g, hg, hgs⟩ := h
  have hfind : ((env.listing (baseName t.local_path) t.parent_drive_id).find?
      (fun f => sizeVal f == env.localSize t.local_path)).isSome := by
    rw [List.find?_isSome]
    exact ⟨g, hg, by simp [sizeVal, hgs]⟩
  obtain ⟨f, hf⟩ := Option.isSome_iff_exists.mp hfind
  have hmem := List.mem_of_find?_eq_some hf
  have hpred := @List.find?_some _
    (fun f => sizeVal f == env.localSize t.local_path) f _ hf
  have hsz : sizeVal f = env.localSize t.local_path := eq_of_beq hpred
  have hup : upload_file env t = .ok (f.id, false) := by
    simp only [upload_file]
    rw [hf]
  exact ⟨f, hmem, hsz, hup,
    process_queue_cons_ok env maxR d t rest f.id false hup⟩

/-- Witness for C3 at a concrete run: remote already has `a.txt` of 10
bytes under the parent, the local `a.txt` is 10 bytes. -/
theorem dedup_skips_upload_witness :
    (∃ f ∈ envC3.listing (baseName taskC3.local_path) taskC3.parent_drive_id,
      f.size = some (envC3.localSize taskC3.local_path)) ∧
    (∃ f ∈ envC3.listing (baseName taskC3.local_path) taskC3.parent_drive_id,
      sizeVal f = envC3.localSize taskC3.local_path ∧
      upload_file envC3 taskC3 = .ok (f.id, false) ∧
      process_queue envC3 5 1 (taskC3 :: []) =
        .done taskC3.rel_path false :: process_queue envC3 5 1 []) :=
  ⟨by decide, dedup_skips_upload envC3 5 1 taskC3 [] (by decide)⟩

/-- C4: if every on-disk relative path is already in the done log, the
recomputed todo set is empty, the built task queue is empty, and the
second run performs zero upload calls. -/
theorem second_run_zero_uploads (currentFiles : List RelPath)
    (doneLines : Option (List String)) (goc : String → String → String)
    (is_file : String → Bool) (local_root root_id : String)
    (env : DriveEnv) (maxR : Nat) (d : ℚ)
    (h : ∀ p ∈ currentFiles, p ∈ load_done_set doneLines) :
    (list_files_with_cache currentFiles doneLines).todo_log = [] ∧
    (list_files_with_cache currentFiles doneLines).todo_count = 0 ∧
    (build_tasks_from_cache goc is_file local_root root_id
      (list_files_with_cache currentFiles doneLines).todo_log).tasks = [] ∧
    process_queue env maxR d
      (build_tasks_from_cache goc is_file local_root root_id
        (list_files_with_cache currentFiles doneLines).todo_log).tasks = [] ∧
    uploadsIssued (process_queue env maxR d
      (build_tasks_from_cache goc is_file local_root root_id
        (list_files_with_cache currentFiles doneLines).todo_log).tasks) = 0 := by
  have h0 : (list_files_with_cache currentFiles doneLines).todo_log = [] := by
    simp only [list_files_with_cache]
    rw [List.filter_eq_nil_iff]
    intro a ha
    simp [h a ha]
  have h1 : (list_files_with_cache currentFiles doneLines).todo_count =
      (list_files_with_cache currentFiles doneLines).todo_log.length := rfl
  refine ⟨h0, ?_, ?_, ?_, ?_⟩
  · rw [h1, h0]
    rfl
  · rw [h0]
    rfl
  · rw [h0]
    rfl
  · rw [h0]
    rfl

/-- Witness for C4 at a concrete run: both on-disk files already appear in
the done log. -/
theorem second_run_zero_uploads_witness :
    (∀ p ∈ ["a.txt", "sub/b.txt"],
      p ∈ load_done_set (some ["a.txt", "sub/b.txt"])) ∧
    ((list_files_with_cache ["a.txt", "sub/b.txt"]
        (some ["a.txt", "sub/b.txt"])).todo_log = [] ∧
      (list_files_with_cache ["a.txt", "sub/b.txt"]
        (some ["a.txt", "sub/b.txt"])).todo_count = 0 ∧
      (build_tasks_from_cache (fun n p => p ++ "/" ++ n) (fun _ => true)
        "L" "root" (list_files_with_cache ["a.txt", "sub/b.txt"]
          (some ["a.txt", "sub/b.txt"])).todo_log).tasks = [] ∧
      process_queue envC4 5 1
        (build_tasks_from_cache (fun n p => p ++ "/" ++ n) (fun _ => true)
          "L" "root" (list_files_with_cache ["a.txt", "sub/b.txt"]
            (some ["a.txt", "sub/b.txt"])).todo_log).tasks = [] ∧
      uploadsIssued (process_queue envC4 5 1
        (build_tasks_from_cache (fun n p => p ++ "/" ++ n) (fun _ => true)
          "L" "root" (list_files_with_cache ["a.txt", "sub/b.txt"]
            (some ["a.txt", "sub/b.txt"])).todo_log).tasks) = 0) :=
  ⟨by decide, second_run_zero_uploads ["a.txt", "sub/b.txt"]
    (some ["a.txt", "sub/b.txt"]) (fun n p => p ++ "/" ++ n) (fun _ => true)
    "L" "root" envC4 5 1 (by decide)⟩

/-- C5: every re-enqueue event of a run carries the delay
`base_delay * 2 ^ (n - 1)` where `n` is the retry counter at the time of
the re-enqueue, and that counter never exceeds `max_retries` while the
task is still being retried (only a failure report may mention
`max_retries + 1`). -/
theorem backoff_delay_formula (env : DriveEnv) (maxR : Nat) (d : ℚ)
    (tasks : List UploadTask) (r : RelPath) (n : Nat) (delay : ℚ)
    (h : Event.retried r n delay ∈ process_queue env maxR d tasks) :
    delay = d * 2 ^ (n - 1) ∧ 1 ≤ n ∧ n ≤ maxR :=
  process_go_retried_spec env maxR d (queueMeasure maxR tasks) tasks
    (le_refl _) r n delay h

/-- Witness for C5 at a concrete run: the first attempt fails with HTTP
503 and is re-enqueued with counter 1 and delay `1 * 2 ^ 0`. -/
theorem backoff_delay_formula_witness :
    (Event.retried "a.txt" 1 ((1 : ℚ) * 2 ^ (1 - 1)) ∈
      process_queue envC5 5 1 [taskC5]) ∧
    ((1 : ℚ) * 2 ^ (1 - 1) = 1 * 2 ^ (1 - 1) ∧ 1 ≤ 1 ∧ 1 ≤ 5) := by
  have hmem : Event.retried "a.txt" 1 ((1 : ℚ) * 2 ^ (1 - 1)) ∈
      process_queue envC5 5 1 [taskC5] := by
    rw [process_queue_cons_retry envC5 5 1 taskC5 [] 503 rfl
      (by decide) (by decide)]
    exact List.mem_cons_self _ _
  exact ⟨hmem, backoff_delay_formula envC5 5 1 [taskC5] "a.txt" 1 _ hmem⟩

/-- Counterexample for C6 as stated: HTTP 501 is a server-side 5xx-class
failure, so the spec's classifier calls it transient, but `should_retry`
classifies it permanent (it retries only 403, 500, 502, 503, 504). -/
theorem transient_class_mismatch_501 :
    spec_transient 501 = true ∧ should_retry 501 = false := by decide

/-- C6 (amended): an `HttpError` is classified transient and retried
exactly when its status is one of 403, 500, 502, 503, 504; any other
status is classified permanent, the task is marked failed without any
retry, and the run continues with the remaining queue. -/
theorem permanent_error_fails_without_retry (env : DriveEnv) (maxR : Nat)
    (d : ℚ) (t : UploadTask) (rest : List UploadTask) (s : Nat)
    (hup : upload_file env t = .error s)
    (hperm : should_retry s = false) :
    (∀ code, should_retry code = true ↔
      (code = 403 ∨ code = 500 ∨ code = 502 ∨ code = 503 ∨ code = 504)) ∧
    process_queue env maxR d (t :: rest) =
      .failed t.rel_path (t.retries + 1) :: process_queue env maxR d rest := by
  constructor
  · intro code
    simp only [should_retry, Bool.or_eq_true, beq_iff_eq]
    tauto
  · exact process_queue_cons_fail env maxR d t rest s hup (by simp [hperm])

/-- Witness for C6 at a concrete run: an upload failing with HTTP 404 is
reported failed at once and the run goes on. -/
theorem permanent_error_witness :
    (upload_file envC6 taskC6 = Except.error 404) ∧
    should_retry 404 = false ∧
    ((∀ code, should_retry code = true ↔
        (code = 403 ∨ code = 500 ∨ code = 502 ∨ code = 503 ∨ code = 504)) ∧
      process_queue envC6 5 1 [taskC6] = [Event.failed "a.txt" 1]) := by
  refine ⟨rfl, rfl, ?_⟩
  have h := permanent_error_fails_without_retry envC6 5 1 taskC6 [] 404 rfl rfl
  refine ⟨h.1, ?_⟩
  rw [h.2]
  rfl

/-- C7: a first resolution of an uncached relative directory issues at
most one `get_or_create_folder` round trip per cumulative path key absent
from the cache, writes every cumulative key through to the cache with the
full path mapped to the returned folder id, and a second resolution of the
same path against the resulting cache issues zero remote calls and returns
the same id and cache. -/
theorem folder_resolution_memoized (goc : String → String → String)
    (root rel : String) (cache : FolderCache) (parts : List String)
    (r1 r2 : ResolveResult)
    (hsplit : splitOnSlash rel = parts)
    (hrel1 : rel ≠ "") (hrel2 : rel ≠ ".")
    (hparts : "" ∉ parts) (hpne : parts ≠ [])
    (hjoin : joinSlash parts = rel)
    (hmiss : cacheFind cache rel = none)
    (hr1 : r1 = ensure_folder_for_relative_path goc root rel cache)
    (hr2 : r2 = ensure_folder_for_relative_path goc root rel r1.cache) :
    r1.calls ≤ (cumKeys parts).countP (fun k => (cacheFind cache k).isNone) ∧
    (∀ k ∈ cumKeys parts, (cacheFind r1.cache k).isSome = true) ∧
    cacheFind r1.cache rel = some r1.folder_id ∧
    r2.calls = 0 ∧ r2.folder_id = r1.folder_id ∧ r2.cache = r1.cache := by
  have hif : ¬ (rel = "" ∨ rel = ".") := fun h => h.elim hrel1 hrel2
  rw [ensure_folder_for_relative_path, if_neg hif, hmiss, hsplit] at hr1
  have hcache : r1.cache = (ensure_go goc parts root [] cache 0).2.1 := by
    rw [hr1]
  have hid : r1.folder_id = (ensure_go goc parts root [] cache 0).1 := by
    rw [hr1]
  have hcalls : r1.calls = (ensure_go goc parts root [] cache 0).2.2 := by
    rw [hr1]
  have hlast : cacheFind (ensure_go goc parts root [] cache 0).2.1
      (joinSlash parts) = some (ensure_go goc parts root [] cache 0).1 := by
    have := ensure_go_last goc parts root [] cache 0 hparts hpne
    rwa [List.nil_append] at this
  have h3 : cacheFind r1.cache rel = some r1.folder_id := by
    rw [hcache, hid, ← hjoin]
    exact hlast
  have hr2w : r2 = (⟨r1.folder_id, r1.cache, 0⟩ : ResolveResult) := by
    rw [hr2, ensure_folder_for_relative_path, if_neg hif, h3]
  refine ⟨?_, ?_, h3, ?_, ?_, ?_⟩
  · rw [hcalls]
    have := ensure_go_calls_le goc parts root [] cache 0 hparts
    simpa [cumKeys] using this
  · intro k hk
    rw [hcache]
    exact ensure_go_keys_cached goc parts root [] cache 0 hparts k hk
  · rw [hr2w]
  · rw [hr2w]
  · rw [hr2w]

/-- Witness for C7 at a concrete resolution of `video/animation` from a
cache holding only the root. -/
theorem folder_resolution_memoized_witness :
    (splitOnSlash "video/animation" = ["video", "animation"] ∧
      joinSlash ["video", "animation"] = "video/animation" ∧
      cacheFind cacheC7 "video/animation" = none) ∧
    (r1C7.calls ≤ (cumKeys ["video", "animation"]).countP
        (fun k => (cacheFind cacheC7 k).isNone) ∧
      (∀ k ∈ cumKeys ["video", "animation"],
        (cacheFind r1C7.cache k).isSome = true) ∧
      cacheFind r1C7.cache "video/animation" = some r1C7.folder_id ∧
      r2C7.calls = 0 ∧ r2C7.folder_id = r1C7.folder_id ∧
      r2C7.cache = r1C7.cache) := by
  refine ⟨⟨by decide, by decide, by decide⟩, ?_⟩
  exact folder_resolution_memoized gocC7 "root" "video/animation" cacheC7
    ["video", "animation"] r1C7 r2C7 (by decide) (by decide) (by decide)
    (by decide) (by decide) (by decide) (by decide) rfl rfl

/-- C9: in `build_tasks_from_cache`, every non-blank todo line whose local
file has vanished is skipped with a warning — it yields no task, so it is
neither uploaded, retried nor treated as an error — and every other
non-blank line still becomes a task: processing continues. -/
theorem missing_local_file_skipped (goc : String → String → String)
    (is_file : String → Bool) (local_root root_id : String)
    (todoLines : List String) :
    (build_tasks_from_cache goc is_file local_root root_id todoLines).skipped =
      ((todoLines.map stripLine).filter
        (fun r => !(r == "") && !(is_file (local_root ++ "/" ++ r)))).map
        (fun r => local_root ++ "/" ++ r) ∧
    (build_tasks_from_cache goc is_file local_root root_id
        todoLines).tasks.map UploadTask.rel_path =
      (todoLines.map stripLine).filter
        (fun r => !(r == "") && is_file (local_root ++ "/" ++ r)) :=
  build_go_skipped_tasks goc is_file local_root root_id todoLines
    (cacheInsert [] "" root_id)

/-- Counterexample for C10 as stated: with a zero-byte local file, a
non-trashed same-name remote object whose size field is present and
nonzero does not short-circuit the upload — `upload_file` still issues the
create call. -/
theorem sized_object_no_short_circuit :
    envC10x.localSize taskC10x.local_path = 0 ∧
    envC10x.listing (baseName taskC10x.local_path) taskC10x.parent_drive_id =
      [{ id := "f1", name := "a.txt", size := some 5 }] ∧
    upload_file envC10x taskC10x = .ok ("new", true) := ⟨rfl, rfl, rfl⟩

/-- C10 (amended): an object returned by the name query that lacks a size
field is treated as having size 0; consequently, for a zero-byte local
file, any non-trashed same-name object under the resolved parent whose
size field is absent or zero (the query does not filter by object type, so
folders and sizeless native documents qualify) causes the upload to
short-circuit and an existing matching object's id to be returned. -/
theorem sizeless_object_matches_zero_byte (env : DriveEnv) (t : UploadTask)
    (f : RemoteFile)
    (hzero : env.localSize t.local_path = 0)
    (hf : f ∈ env.listing (baseName t.local_path) t.parent_drive_id)
    (hsize : f.size = none ∨ f.size = some 0) :
    (∀ i nm, sizeVal { id := i, name := nm, size := none } = 0) ∧
    ∃ g ∈ env.listing (baseName t.local_path) t.parent_drive_id,
      sizeVal g = 0 ∧ upload_file env t = .ok (g.id, false) := by
  refine ⟨fun i nm => rfl, ?_⟩
  have hfz : sizeVal f = 0 := by
    rcases hsize with hn | hn <;> simp [sizeVal, hn]
  have hfind : ((env.listing (baseName t.local_path) t.parent_drive_id).find?
      (fun f => sizeVal f == env.localSize t.local_path)).isSome := by
    rw [List.find?_isSome]
    exact ⟨f, hf, by simp [hfz, hzero]⟩
  obtain ⟨g, hg⟩ := Option.isSome_iff_exists.mp hfind
  have hmem := List.mem_of_find?_eq_some hg
  have hpred := @List.find?_some _
    (fun f => sizeVal f == env.localSize t.local_path) g _ hg
  have hgz : sizeVal g = 0 := (eq_of_beq hpred).trans hzero
  have hup : upload_file env t = .ok (g.id, false) := by
    simp only [upload_file]
    rw [hg]
  exact ⟨g, hmem, hgz, hup⟩

/-- Witness for C10: a sizeless same-name object (a folder) short-circuits
the upload of a zero-byte local file. -/
theorem sizeless_object_matches_zero_byte_witness :
    envC10.localSize taskC10.local_path = 0 ∧
    ({ id := "folder1", name := "sub", size := none } : RemoteFile) ∈
      envC10.listing (baseName taskC10.local_path) taskC10.parent_drive_id ∧
    (({ id := "folder1", name := "sub", size := none } : RemoteFile).size =
        none ∨
      ({ id := "folder1", name := "sub", size := none } : RemoteFile).size =
        some 0) ∧
    ((∀ i nm, sizeVal { id := i, name := nm, size := none } = 0) ∧
      ∃ g ∈ envC10.listing (baseName taskC10.local_path) taskC10.parent_drive_id,
        sizeVal g = 0 ∧ upload_file envC10 taskC10 = .ok (g.id, false)) := by
  refine ⟨rfl, by decide, Or.inl rfl, ?_⟩
  exact sizeless_object_matches_zero_byte envC10 taskC10
    { id := "folder1", name := "sub", size := none } rfl (by decide)
    (Or.inl rfl)
